import Mathlib

/-!
Shallow embedding of the core of the `german-apartments-alerts` repository:
the canonical listing data model, the fingerprint hash (`buildHash`),
provider normalization and error handling (`BaseProvider`,
`BrowserBasedProvider.scrape`), the checkpoint/dedup engine
(`ScrapingService.findNewListings` and the checkpoint update inside
`scrapeForUser`), the iteration-level monitoring tracker
(`MonitoringService.onIterationEnd`), and the selector-driven extraction
engine (`BrowserService.scrape`'s in-page evaluation).

Effectful bits are made explicit: `Date.now()` becomes a `now : Nat`
parameter, the repository becomes an explicit association-list state,
thrown JS errors become an explicit error constructor, and byte strings
are modeled as lists of `Nat` code points (exact for the ASCII data the
fingerprint inputs are built from).
-/

set_option maxRecDepth 16000

namespace Apartments

/-! ### Data model (src/domain/entities/Listing.ts)

`RawListing`: loosely-typed field bag produced by extraction; every field
optional.  `Listing`: the canonical record.  TypeScript `string | null`
and optional fields are both modeled as `Option String`. -/

structure RawListing where
  id : Option String := none
  title : Option String := none
  price : Option String := none
  size : Option String := none
  address : Option String := none
  link : Option String := none
  description : Option String := none
  image : Option String := none
deriving DecidableEq, Repr

structure Listing where
  id : String
  title : String
  price : Option String
  size : Option String
  address : Option String
  link : String
  description : Option String
  image : Option String
  hash : String
  source : String
deriving DecidableEq, Repr

/-- JS truthiness for an optional string: `undefined`/`null` and `""` are
falsy, every other string is truthy. -/
def optTruthy : Option String → Bool
  | none => false
  | some s => !(s == "")

/-- JS `o || d` for an optional string and a string default. -/
def jsOrD (o : Option String) (d : String) : String :=
  match o with
  | none => d
  | some s => if s == "" then d else s

/-- JS `o || null` for an optional string: collapses `""` to `null`. -/
def jsOrNull (o : Option String) : Option String :=
  match o with
  | none => none
  | some s => if s == "" then none else some s

/-! ### SHA-256 (the `crypto.createHash('sha256')...digest('hex')` used by
`src/infrastructure/utils/hash.ts`), implemented over `Nat` with explicit
`% 2^32` arithmetic.  Messages are lists of byte values. -/

def M32 : Nat := 4294967296

def add32 (a b : Nat) : Nat := (a + b) % M32

def not32 (x : Nat) : Nat := Nat.xor x 4294967295

def rotr32 (n x : Nat) : Nat := ((x >>> n) ||| (x <<< (32 - n))) % M32

def smallSigma0 (w : Nat) : Nat := Nat.xor (Nat.xor (rotr32 7 w) (rotr32 18 w)) (w >>> 3)

def smallSigma1 (w : Nat) : Nat := Nat.xor (Nat.xor (rotr32 17 w) (rotr32 19 w)) (w >>> 10)

def bigSigma0 (a : Nat) : Nat := Nat.xor (Nat.xor (rotr32 2 a) (rotr32 13 a)) (rotr32 22 a)

def bigSigma1 (e : Nat) : Nat := Nat.xor (Nat.xor (rotr32 6 e) (rotr32 11 e)) (rotr32 25 e)

def chOp (e f g : Nat) : Nat := Nat.xor (Nat.land e f) (Nat.land (not32 e) g)

def majOp (a b c : Nat) : Nat :=
  Nat.xor (Nat.xor (Nat.land a b) (Nat.land a c)) (Nat.land b c)

def sha256init : List Nat :=
  [1779033703, 3144134277, 1013904242, 2773480762,
   1359893119, 2600822924, 528734635, 1541459225]

def sha256k : List Nat :=
  [1116352408, 1899447441, 3049323471, 3921009573, 961987163,
   1508970993, 2453635748, 2870763221, 3624381080, 310598401,
   607225278, 1426881987, 1925078388, 2162078206, 2614888103,
   3248222580, 3835390401, 4022224774, 264347078, 604807628,
   770255983, 1249150122, 1555081692, 1996064986, 2554220882,
   2821834349, 2952996808, 3210313671, 3336571891, 3584528711,
   113926993, 338241895, 666307205, 773529912, 1294757372,
   1396182291, 1695183700, 1986661051, 2177026350, 2456956037,
   2730485921, 2820302411, 3259730800, 3345764771, 3516065817,
   3600352804, 4094571909, 275423344, 430227734, 506948616,
   659060556, 883997877, 958139571, 1322822218, 1537002063,
   1747873779, 1955562222, 2024104815, 2227730452, 2361852424,
   2428436474, 2756734187, 3204031479, 3329325298]

/-- Big-endian byte decomposition of `v` into `n` bytes. -/
def bytesBE (n v : Nat) : List Nat :=
  (List.range n).map (fun i => (v >>> (8 * (n - 1 - i))) % 256)

/-- SHA-256 padding: append `0x80`, zeros, and the 8-byte big-endian bit
length, reaching a multiple of 64 bytes. -/
def sha256pad (msg : List Nat) : List Nat :=
  let l := msg.length
  let zeros := (64 + 56 - (l + 1) % 64) % 64
  msg ++ [0x80] ++ List.replicate zeros 0 ++ bytesBE 8 (8 * l)

/-- Split a (padded) byte list into 64-byte chunks; structural recursion so
that concrete evaluations reduce in the kernel. -/
def chunks64Aux : List Nat → List Nat → List (List Nat)
  | [], acc => if acc.isEmpty then [] else [acc.reverse]
  | b :: rest, acc =>
    if acc.length == 63 then (b :: acc).reverse :: chunks64Aux rest []
    else chunks64Aux rest (b :: acc)

def chunks64 (l : List Nat) : List (List Nat) := chunks64Aux l []

/-- First 16 message-schedule words of one 64-byte chunk (big-endian). -/
def chunkWords (chunk : List Nat) : List Nat :=
  (List.range 16).map (fun i =>
    chunk.getD (4 * i) 0 * 16777216 + chunk.getD (4 * i + 1) 0 * 65536 +
    chunk.getD (4 * i + 2) 0 * 256 + chunk.getD (4 * i + 3) 0)

/-- Extend the 16 words to the full 64-word message schedule. -/
def sha256schedule (w16 : List Nat) : List Nat :=
  (List.range 48).foldl
    (fun ws i =>
      ws ++ [add32 (add32 (smallSigma1 (ws.getD (i + 14) 0)) (ws.getD (i + 9) 0))
                   (add32 (smallSigma0 (ws.getD (i + 1) 0)) (ws.getD i 0))])
    w16

/-- One compression round on the 8-word working state. -/
def sha256round (st : List Nat) (k w : Nat) : List Nat :=
  let a := st.getD 0 0
  let b := st.getD 1 0
  let c := st.getD 2 0
  let d := st.getD 3 0
  let e := st.getD 4 0
  let f := st.getD 5 0
  let g := st.getD 6 0
  let h := st.getD 7 0
  let t1 := add32 (add32 (add32 (add32 h (bigSigma1 e)) (chOp e f g)) k) w
  let t2 := add32 (bigSigma0 a) (majOp a b c)
  [add32 t1 t2, a, b, c, add32 d t1, e, f, g]

/-- Compress one 64-byte chunk into the running hash value. -/
def sha256compress (hs : List Nat) (chunk : List Nat) : List Nat :=
  let w := sha256schedule (chunkWords chunk)
  let fin := (List.range 64).foldl
    (fun st i => sha256round st (sha256k.getD i 0) (w.getD i 0)) hs
  List.zipWith add32 hs fin

/-- SHA-256 digest of a byte list, as the 8 32-bit hash words. -/
def sha256words (msg : List Nat) : List Nat :=
  (chunks64 (sha256pad msg)).foldl sha256compress sha256init

def hexChar (n : Nat) : Char := "0123456789abcdef".toList.getD n '0'

/-- Lower-case hexadecimal rendering of one 32-bit word. -/
def wordHex (v : Nat) : String :=
  String.mk ((List.range 8).map (fun i => hexChar ((v >>> (4 * (7 - i))) % 16)))

/-- Byte values of a string, modeled as the code points of its characters
(identical to UTF-8 for the ASCII data fed to the fingerprint). -/
def strBytes (s : String) : List Nat := s.toList.map Char.toNat

/-- `crypto.createHash('sha256').update(s).digest('hex')`. -/
def sha256hex (s : String) : String :=
  String.join ((sha256words (strBytes s)).map wordHex)

/-! ### `buildHash` (src/infrastructure/utils/hash.ts)

```ts
export function buildHash(...inputs: (string | number | null | undefined)[]): string {
  const cleaned = inputs
    .filter((i): i is string | number => i != null && String(i).length > 0)
    .map(String);
  if (cleaned.length === 0) {
    return crypto.createHash('sha256').update(Date.now().toString()).digest('hex');
  }
  return crypto.createHash('sha256').update(cleaned.join(',')).digest('hex');
}
```

The call to `Date.now()` is effectful; it becomes the explicit `now`
parameter. -/

def cleanedInputs (inputs : List (Option String)) : List String :=
  (inputs.filterMap id).filter (fun s => s.length > 0)

def buildHash (inputs : List (Option String)) (now : Nat) : String :=
  let cleaned := cleanedInputs inputs
  if cleaned.length == 0 then sha256hex (toString now)
  else sha256hex (String.intercalate "," cleaned)

/-! ### JS string helpers used by the providers -/

/-- JS `s.includes(pat)` on character lists. -/
def listIncl (pat : List Char) : List Char → Bool
  | [] => pat.isPrefixOf ([] : List Char)
  | c :: cs => pat.isPrefixOf (c :: cs) || listIncl pat cs

/-- JS `s.includes(pat)`. -/
def strIncludes (s pat : String) : Bool := listIncl pat.toList s.toList

/-- JS `s.startsWith(pre)` (character-level prefix test). -/
def jsStartsWith (s pre : String) : Bool := pre.toList.isPrefixOf s.toList

/-- JS `s.trim()` (whitespace stripped from both ends), implemented over
character lists so that concrete evaluations reduce in the kernel. -/
def jsTrim (s : String) : String :=
  String.mk (((s.toList.dropWhile Char.isWhitespace).reverse.dropWhile
    Char.isWhitespace).reverse)

/-- JS `s.split(sep)` for a single-character separator. -/
def splitOnChar (sep : Char) : List Char → List (List Char)
  | [] => [[]]
  | c :: cs =>
    let r := splitOnChar sep cs
    if c == sep then [] :: r
    else
      match r with
      | [] => [[c]]
      | h :: t => (c :: h) :: t

def jsSplitChar (s : String) (sep : Char) : List String :=
  (splitOnChar sep s.toList).map String.mk

/-- JS `s.replace(pat, '')` for a plain-string pattern: removes the first
occurrence of `pat` only. -/
def removeFirst (pat : List Char) : List Char → List Char
  | [] => []
  | c :: cs => if pat.isPrefixOf (c :: cs) then (c :: cs).drop pat.length
               else c :: removeFirst pat cs

def removeFirstStr (pat s : String) : String := String.mk (removeFirst pat.toList s.toList)

/-- Is there an adjacent `),` pair in the list?  (The `\),` part of the
address-cleaning regex.) -/
def hasCloseComma : List Char → Bool
  | ')' :: ',' :: _ => true
  | _ :: rest => hasCloseComma rest
  | [] => false

/-- JS `s.replace(/\(.*\),.*$/, '')`: delete everything from the first `(`
that is followed (strictly later) by an adjacent `),` pair, provided the
deleted span contains no newline (`.` does not match `\n` and `$` only
matches at the very end of the string). -/
def stripParenTail : List Char → List Char
  | [] => []
  | c :: rest =>
    if c == '(' && hasCloseComma rest && !(c :: rest).contains '\n' then []
    else c :: stripParenTail rest

/-! ### BaseProvider (src/infrastructure/providers/BaseProvider.ts) -/

structure ProviderError where
  message : String
  possibleCause : String
deriving DecidableEq, Repr

/-- Mutable per-provider state: the configured source url (`undefined` or a
string; `isEnabled` is JS truthiness of it), the consecutive-error counter
and the last recorded error. -/
structure ProviderState where
  url : Option String
  consecutiveErrors : Nat := 0
  lastError : Option ProviderError := none
deriving DecidableEq, Repr

def isEnabled (st : ProviderState) : Bool := optTruthy st.url

/-- The fixed vocabulary of probable causes `detectPossibleCause` draws
from. -/
def causeVocabulary : List String :=
  ["Request timeout - site may be slow or blocking",
   "HTTP 403 Forbidden - likely IP blocked or bot detection",
   "HTTP 429 Too Many Requests - rate limited",
   "CAPTCHA detected - bot protection triggered",
   "Selector not found - site structure may have changed",
   "Navigation failed - network issue or site down",
   "Access denied - likely blocked by the website",
   "Unknown error - check logs for details"]

def detectPossibleCause (msg : String) : String :=
  let m := msg.toLower
  if strIncludes m "timeout" then "Request timeout - site may be slow or blocking"
  else if strIncludes m "403" || strIncludes m "forbidden" then
    "HTTP 403 Forbidden - likely IP blocked or bot detection"
  else if strIncludes m "429" || strIncludes m "too many" then
    "HTTP 429 Too Many Requests - rate limited"
  else if strIncludes m "captcha" then "CAPTCHA detected - bot protection triggered"
  else if strIncludes m "selector" || strIncludes m "element" then
    "Selector not found - site structure may have changed"
  else if strIncludes m "navigation" || strIncludes m "net::" then
    "Navigation failed - network issue or site down"
  else if strIncludes m "blocked" || strIncludes m "denied" then
    "Access denied - likely blocked by the website"
  else "Unknown error - check logs for details"

/-- `BaseProvider.handleError`: bump the consecutive-error counter and
record the classified error (logging has no further state effect). -/
def handleError (st : ProviderState) (msg : String) : ProviderState :=
  { st with consecutiveErrors := st.consecutiveErrors + 1,
            lastError := some ⟨msg, detectPossibleCause msg⟩ }

/-- `BaseProvider.resetErrors`. -/
def resetErrors (st : ProviderState) : ProviderState :=
  { st with consecutiveErrors := 0, lastError := none }

/-- `BaseProvider.normalizeListing`. -/
def normalizeListing (now : Nat) (raw : RawListing) (source : String) : Listing :=
  let title := match raw.title with
    | none => "N/A"
    | some t =>
      let t' := jsTrim (removeFirstStr "NEU" t)
      if t' == "" then "N/A" else t'
  let address := match raw.address with
    | none => "N/A"
    | some a =>
      let a' := jsTrim (String.mk (stripParenTail a.toList))
      if a' == "" then "N/A" else a'
  let hash := buildHash [raw.id, raw.price] now
  { id := jsOrD raw.id hash
    title := title
    price := jsOrNull raw.price
    size := jsOrNull raw.size
    address := some address
    link := jsOrD raw.link ""
    description := jsOrNull raw.description
    image := jsOrNull raw.image
    hash := hash
    source := source }

/-- `BaseProvider.isValidListing`:
`!!(raw.link && !raw.link.includes('undefined') && (raw.title || raw.price))`. -/
def isValidListing (raw : RawListing) : Bool :=
  match raw.link with
  | none => false
  | some l => !(l == "") && !(strIncludes l "undefined") &&
      (optTruthy raw.title || optTruthy raw.price)

/-! ### BrowserBasedProvider.scrape
(src/infrastructure/providers/BrowserBasedProvider.ts)

The outcome of the `browserService.scrape` call (the only suspension point
inside the `try` block whose result matters) is made explicit: it either
returns raw listings or throws with some message. -/

inductive ScrapeFetch where
  | ok (raws : List RawListing)
  | err (msg : String)
deriving DecidableEq, Repr

def noListingsMsg : String := "No listings found - possible blocking or selector change"

/-- `BrowserBasedProvider.scrape(maxResults)`, parameterized by the
provider's `transformListing` override.  Returns the listing list together
with the updated provider state; the function is total — the `catch` block
converts every thrown error into `([], handleError ...)`. -/
def browserScrape (transform : RawListing → Listing) (st : ProviderState)
    (fetch : ScrapeFetch) (maxResults : Nat) : List Listing × ProviderState :=
  if !isEnabled st then ([], st)
  else
    match fetch with
    | .err msg => ([], handleError st msg)
    | .ok raws =>
      let validListings := raws.filter isValidListing
      let listings := (validListings.take maxResults).map transform
      if raws.length == 0 then ([], handleError st noListingsMsg)
      else (listings, resetErrors st)

/-! ### ScrapingService (src/application/services/ScrapingService.ts) -/

def CHECKPOINT_COUNT : Nat := 5

structure ProviderStatus where
  name : String
  enabled : Bool
  lastScrapeCount : Nat
  consecutiveErrors : Nat
  healthy : Bool
deriving DecidableEq, Repr

/-- The `ProviderStatus` built inside `scrapeForUser` from a provider's
scrape result and its consecutive-error counter. -/
def mkProviderStatus (name : String) (listings : List Listing)
    (consecutiveErrors : Nat) : ProviderStatus :=
  { name := name
    enabled := true
    lastScrapeCount := listings.length
    consecutiveErrors := consecutiveErrors
    healthy := consecutiveErrors == 0 && listings.length > 0 }

/-- The loop body of `findNewListings`: push listings until one whose hash
is in the checkpoint set, then `break`. -/
def findNewLoop (checkpoints : List String) : List Listing → List Listing
  | [] => []
  | l :: ls => if checkpoints.contains l.hash then [] else l :: findNewLoop checkpoints ls

/-- `ScrapingService.findNewListings(listings, checkpoints)`.  The JS code
receives `new Set(checkpointHashes)`; the set is empty iff the hash list
is, and `has` agrees with list membership, so the state is kept as the
list. -/
def findNewListings (listings : List Listing) (checkpointHashes : List String) : List Listing :=
  if checkpointHashes.isEmpty then listings.take 1
  else findNewLoop checkpointHashes listings

/-- The persisted checkpoint store, keyed by (userId, provider). -/
def Repo : Type := List ((String × String) × List String)

def getCheckpoints (repo : Repo) (userId prov : String) : List String :=
  match List.find? (fun e => e.1.1 == userId && e.1.2 == prov) repo with
  | some e => e.2
  | none => []

def setCheckpoints (userId prov : String) (hashes : List String) : Repo → Repo
  | [] => [((userId, prov), hashes)]
  | e :: rest =>
    if e.1.1 == userId && e.1.2 == prov then ((userId, prov), hashes) :: rest
    else e :: setCheckpoints userId prov hashes rest

/-- The per-provider body of `ScrapingService.scrapeForUser`, given the
listings the provider's `scrape` returned: compute the new listings from
the stored checkpoint hashes, and overwrite the checkpoint with the first
`CHECKPOINT_COUNT` hashes — but only when the scrape returned at least one
listing. -/
def processProvider (userId prov : String) (listings : List Listing)
    (repo : Repo) : List Listing × Repo :=
  let checkpointHashes := getCheckpoints repo userId prov
  let newListings := findNewListings listings checkpointHashes
  let repo' :=
    if listings.length > 0 then
      setCheckpoints userId prov ((listings.take CHECKPOINT_COUNT).map (fun l => l.hash)) repo
    else repo
  (newListings, repo')

/-! ### MonitoringService iteration tracker (src/infrastructure/monitoring) -/

def CONSECUTIVE_FAILURES_THRESHOLD : Nat := 4

structure MonState where
  errorAlertsEnabled : Bool := true
  currentIterationErrors : List (String × List String) := []
  consecutiveFailedIterations : Nat := 0
  notifiedForCurrentStreak : Bool := false
deriving DecidableEq, Repr

def getAssoc (k : String) : List (String × List String) → Option (List String)
  | [] => none
  | e :: rest => if e.1 == k then some e.2 else getAssoc k rest

/-- JS `Map.set`: update in place if present, else append. -/
def setAssoc (k : String) (v : List String) :
    List (String × List String) → List (String × List String)
  | [] => [(k, v)]
  | e :: rest => if e.1 == k then (k, v) :: rest else e :: setAssoc k v rest

def onIterationStart (st : MonState) : MonState :=
  { st with currentIterationErrors := [] }

/-- `MonitoringService.logScrapingError` (state effect only): record the
user key under the provider, deduplicated per cycle. -/
def logScrapingError (st : MonState) (provider userKey : String) : MonState :=
  let existing := (getAssoc provider st.currentIterationErrors).getD []
  let existing' := if existing.contains userKey then existing else existing ++ [userKey]
  { st with currentIterationErrors := setAssoc provider existing' st.currentIterationErrors }

/-- `MonitoringService.onIterationEnd`: returns the new state and whether
the aggregate alert was emitted this cycle. -/
def onIterationEnd (st : MonState) : MonState × Bool :=
  if st.currentIterationErrors.length > 0 then
    let cfi := st.consecutiveFailedIterations + 1
    if st.errorAlertsEnabled && cfi ≥ CONSECUTIVE_FAILURES_THRESHOLD &&
        !st.notifiedForCurrentStreak then
      ({ st with consecutiveFailedIterations := cfi, notifiedForCurrentStreak := true }, true)
    else
      ({ st with consecutiveFailedIterations := cfi }, false)
  else
    ({ st with consecutiveFailedIterations := 0, notifiedForCurrentStreak := false }, false)

/-- One polling cycle as the tracker sees it: `onIterationStart`, the
scraping-error records of the cycle, then `onIterationEnd`. -/
def runCycle (st : MonState) (errs : List (String × String)) : MonState × Bool :=
  onIterationEnd (errs.foldl (fun s e => logScrapingError s e.1 e.2) (onIterationStart st))

/-- Run a list of cycles, counting emitted alerts. -/
def runCycles (st : MonState) : List (List (String × String)) → MonState × Nat
  | [] => (st, 0)
  | c :: cs =>
    let r := runCycle st c
    let rest := runCycles r.1 cs
    (rest.1, (if r.2 then 1 else 0) + rest.2)

/-! ### Extraction engine (the `page.evaluate` body of
`BrowserService.scrape`, src/infrastructure/browser/BrowserService.ts) -/

structure DomNode where
  textContent : Option String
  attrs : List (String × String)

/-- Outcome of `card.querySelector(sel)`: it can throw (malformed
selector), match nothing, or return an element. -/
inductive QueryResult where
  | qerr
  | qnone
  | qfound (n : DomNode)

/-- A container element: its own node plus its `querySelector`. -/
structure DomCard where
  self : DomNode
  query : String → QueryResult

/-- JS `el.getAttribute(attr)`: the attribute's string or null. -/
def getAttr (n : DomNode) (a : String) : Option String :=
  match List.find? (fun p => p.1 == a) n.attrs with
  | some p => some p.2
  | none => none

/-- `textContent.replace(/\n/g, ' ')`. -/
def collapseNewlines (s : String) : String :=
  String.mk (s.toList.map (fun c => if c == '\n' then ' ' else c))

/-- `el.textContent?.replace(/\n/g, ' ').trim() || null`. -/
def textValue (n : DomNode) : Option String :=
  match n.textContent with
  | none => none
  | some t =>
    let c := jsTrim (collapseNewlines t)
    if c == "" then none else some c

/-- Parse one field expression: take the first `|`-alternate, trim it, and
split off an `@attribute` part if present (`""` encodes the falsy/absent
attribute). -/
def parseField (expr : String) : String × String :=
  let sel0 := jsTrim ((jsSplitChar expr '|').headD "")
  if sel0.toList.contains '@' then
    let parts := jsSplitChar sel0 '@'
    (parts.headD "", parts.getD 1 "")
  else (sel0, "")

/-- The per-field extraction after parsing: resolve the element (`*` is the
container itself), then attribute string or collapsed/trimmed text; the
surrounding `try`/`catch` turns a throwing `querySelector` into null. -/
def evalParsed (card : DomCard) (sel attr : String) : Option String :=
  let el := if sel == "*" then QueryResult.qfound card.self else card.query sel
  match el with
  | .qerr => none
  | .qnone => none
  | .qfound n => if attr == "" then textValue n else getAttr n attr

/-- The full per-field extraction on the raw expression string. -/
def evalField (card : DomCard) (expr : String) : Option String :=
  evalParsed card (parseField expr).1 (parseField expr).2

/-- Extraction of all fields of one container: each field is evaluated
independently (the `try`/`catch` sits inside `evalField`). -/
def extractCard (card : DomCard) (fields : List (String × String)) :
    List (String × Option String) :=
  fields.map (fun p => (p.1, evalField card p.2))

/-- Modelled from the spec (§4.1 sentence quoted by the claim): "If an
attribute is given, the field value is that attribute's string (or null if
absent); otherwise the value is the element's text content with internal
newlines collapsed to spaces and surrounding whitespace trimmed, or null
if the selector matches nothing.  A malformed or throwing per-field
extraction must degrade to null." -/
def specFieldValue (card : DomCard) (sel attr : String) : Option String :=
  let el := if sel == "*" then QueryResult.qfound card.self else card.query sel
  match el with
  | .qerr => none
  | .qnone => none
  | .qfound n =>
    if attr == "" then some (jsTrim (collapseNewlines (n.textContent.getD "")))
    else getAttr n attr

/-- Amended spec-side description: as `specFieldValue`, but the text branch
also yields null when the element has no text content or the collapsed and
trimmed text is empty. -/
def specFieldValueAmended (card : DomCard) (sel attr : String) : Option String :=
  let el := if sel == "*" then QueryResult.qfound card.self else card.query sel
  match el with
  | .qerr => none
  | .qnone => none
  | .qfound n =>
    if attr == "" then
      match n.textContent with
      | none => none
      | some t => if jsTrim (collapseNewlines t) == "" then none
                  else some (jsTrim (collapseNewlines t))
    else getAttr n attr

/-! ### KleinanzeigenProvider.transformListing
(src/infrastructure/providers/KleinanzeigenProvider.ts) -/

def kleinanzeigenDomain : String := "https://www.kleinanzeigen.de"

def kleinanzeigenTransform (now : Nat) (raw : RawListing) : Listing :=
  let listing := normalizeListing now raw "Kleinanzeigen"
  if !(listing.link == "") && !(jsStartsWith listing.link "http") then
    { listing with link := kleinanzeigenDomain ++ listing.link }
  else listing

/-! ## Shared helper lemmas and sample data -/

/-- A sample listing used by witness theorems; only the `hash` matters for
the checkpoint engine. -/
def sampleListing (h : String) : Listing :=
  { id := h, title := "t", price := none, size := none, address := none,
    link := "https://example.org/x", description := none, image := none,
    hash := h, source := "Test" }

theorem contains_iff_mem' (l : List String) (a : String) :
    l.contains a = true ↔ a ∈ l := by
  simp [List.contains, List.elem_iff]

theorem findNewLoop_eq_takeWhile (cp : List String) (ls : List Listing) :
    findNewLoop cp ls = ls.takeWhile (fun l => !cp.contains l.hash) := by
  induction ls with
  | nil => rfl
  | cons a ls ih =>
    by_cases h : cp.contains a.hash <;> simp [findNewLoop, List.takeWhile_cons, h, ih]

theorem length_le_takeWhile_of_all {α : Type} (p : α → Bool) :
    ∀ (l pre : List α), pre <+: l → (∀ x ∈ pre, p x) →
      pre.length ≤ (l.takeWhile p).length := by
  intro l
  induction l with
  | nil =>
    intro pre hp _
    rw [List.prefix_nil.mp hp]
    simp
  | cons a l ih =>
    intro pre hp hall
    cases pre with
    | nil => simp
    | cons b pre' =>
      obtain ⟨heq, hp'⟩ := List.cons_prefix_cons.mp hp
      subst heq
      have hpb : p b = true := hall b (by simp)
      simp only [List.takeWhile_cons, hpb, if_true, List.length_cons]
      exact Nat.succ_le_succ (ih pre' hp' (fun x hx => hall x (by simp [hx])))

theorem getCheckpoints_setCheckpoints (uid prov : String) (hashes : List String) :
    ∀ repo : Repo, getCheckpoints (setCheckpoints uid prov hashes repo) uid prov = hashes := by
  intro repo
  induction repo with
  | nil => simp [setCheckpoints, getCheckpoints, List.find?]
  | cons e rest ih =>
    by_cases h : (e.1.1 == uid && e.1.2 == prov) = true
    · simp [setCheckpoints, h, getCheckpoints, List.find?]
    · simp only [setCheckpoints, h]
      rw [if_neg (by simp_all)]
      simpa [getCheckpoints, List.find?, h] using ih

/-! ## C1 -/

/-- C1: with a non-empty stored checkpoint-hash set, `findNewListings`
returns exactly the longest prefix of the newest-first current list whose
listings' hashes are all absent from the stored hashes (it is a prefix,
every returned hash is absent, and no longer all-absent prefix exists);
when nothing matches, this prefix is the entire list. -/
theorem C1_findNewListings_break_at_match
    (checkpointHashes : List String) (hne : checkpointHashes ≠ [])
    (listings : List Listing) :
    findNewListings listings checkpointHashes <+: listings ∧
    (∀ l ∈ findNewListings listings checkpointHashes, l.hash ∉ checkpointHashes) ∧
    (∀ pre, pre <+: listings → (∀ l ∈ pre, l.hash ∉ checkpointHashes) →
      pre.length ≤ (findNewListings listings checkpointHashes).length) := by
  have hempty : checkpointHashes.isEmpty = false := by
    cases checkpointHashes with
    | nil => exact absurd rfl hne
    | cons a l => rfl
  have hdef : findNewListings listings checkpointHashes
      = listings.takeWhile (fun l => !checkpointHashes.contains l.hash) := by
    simp [findNewListings, hempty, findNewLoop_eq_takeWhile]
  rw [hdef]
  refine ⟨List.takeWhile_prefix _, ?_, ?_⟩
  · intro l hl hmem
    have h1 := List.mem_takeWhile_imp hl
    simp only [Bool.not_eq_true'] at h1
    rw [(contains_iff_mem' checkpointHashes l.hash).mpr hmem] at h1
    simp at h1
  · intro pre hp hall
    refine length_le_takeWhile_of_all _ listings pre hp ?_
    intro x hx
    have hnot : ¬ x.hash ∈ checkpointHashes := hall x hx
    cases h : checkpointHashes.contains x.hash with
    | false => simp [h]
    | true => exact absurd ((contains_iff_mem' _ _).mp h) hnot

/-- Witness for C1: stored hashes `["h2"]`, scrape `[h1, h2, h3]` — the
computed new listings form a prefix of the scrape. -/
theorem C1_witness :
    (["h2"] ≠ ([] : List String)) ∧
    findNewListings [sampleListing "h1", sampleListing "h2", sampleListing "h3"] ["h2"]
      <+: [sampleListing "h1", sampleListing "h2", sampleListing "h3"] :=
  ⟨by decide,
   (C1_findNewListings_break_at_match ["h2"] (by decide)
      [sampleListing "h1", sampleListing "h2", sampleListing "h3"]).1⟩

/-! ## C2 -/

/-- C2: on a first-ever check (empty stored checkpoint hashes) with a
non-empty newest-first scrape, the per-provider cycle body returns exactly
the single newest listing as new, while the checkpoint persisted for the
cycle is the hashes of the first `CHECKPOINT_COUNT` listings of the full
scrape. -/
theorem C2_first_run_confirmation (uid prov : String) (repo : Repo)
    (l : Listing) (ls : List Listing)
    (hfirst : getCheckpoints repo uid prov = []) :
    (processProvider uid prov (l :: ls) repo).1 = [l] ∧
    getCheckpoints (processProvider uid prov (l :: ls) repo).2 uid prov
      = ((l :: ls).take CHECKPOINT_COUNT).map (fun x => x.hash) := by
  constructor
  · simp [processProvider, hfirst, findNewListings]
  · simp only [processProvider, List.length_cons]
    rw [if_pos (by simp)]
    exact getCheckpoints_setCheckpoints uid prov _ repo

/-- Witness for C2: fresh repository, scrape of three listings — `[h1]`
is announced and the stored checkpoint becomes `[h1, h2, h3]`. -/
theorem C2_witness :
    getCheckpoints [] "u" "P" = [] ∧
    (processProvider "u" "P"
        [sampleListing "h1", sampleListing "h2", sampleListing "h3"] []).1
      = [sampleListing "h1"] := by
  refine ⟨by decide, ?_⟩
  have h := C2_first_run_confirmation "u" "P" [] (sampleListing "h1")
    [sampleListing "h2", sampleListing "h3"] (by decide)
  exact h.1

/-! ## C3 -/

/-- C3: on every cycle, if the scrape returned at least one listing the
stored checkpoint for the (user, provider) pair is unconditionally
overwritten with the hashes of the first `CHECKPOINT_COUNT = 5` listings
of the fresh scrape; if it returned zero listings the repository state is
left completely unchanged. -/
theorem C3_checkpoint_overwrite_guard (uid prov : String)
    (listings : List Listing) (repo : Repo) :
    CHECKPOINT_COUNT = 5 ∧
    (listings ≠ [] → getCheckpoints (processProvider uid prov listings repo).2 uid prov
      = (listings.take CHECKPOINT_COUNT).map (fun x => x.hash)) ∧
    (listings = [] → (processProvider uid prov listings repo).2 = repo) := by
  refine ⟨rfl, ?_, ?_⟩
  · intro hne
    simp only [processProvider]
    rw [if_pos (by cases listings with | nil => exact absurd rfl hne | cons a l => simp)]
    exact getCheckpoints_setCheckpoints uid prov _ repo
  · intro he
    subst he
    simp [processProvider]

/-- Witness for C3: a one-listing scrape overwrites a prior checkpoint;
an empty scrape leaves the repository untouched. -/
theorem C3_witness :
    getCheckpoints (processProvider "u" "P" [sampleListing "h9"]
        [(("u", "P"), ["old"])]).2 "u" "P" = [sampleListing "h9"].map (fun x => x.hash) ∧
    (processProvider "u" "P" [] [(("u", "P"), ["old"])]).2 = [(("u", "P"), ["old"])] := by
  constructor
  · have h := (C3_checkpoint_overwrite_guard "u" "P" [sampleListing "h9"]
      [(("u", "P"), ["old"])]).2.1 (by decide)
    simpa using h
  · exact (C3_checkpoint_overwrite_guard "u" "P" [] [(("u", "P"), ["old"])]).2.2 rfl

/-! ## C4 -/

theorem detectPossibleCause_mem_vocab (msg : String) :
    detectPossibleCause msg ∈ causeVocabulary := by
  unfold detectPossibleCause
  dsimp only
  repeat' split
  all_goals simp [causeVocabulary]

/-- C4: `BrowserBasedProvider.scrape` is total (it returns a value for
every fetch outcome instead of throwing).  On a thrown internal error —
and likewise on a fetch that yields zero raw listings — it increments the
consecutive-error counter, records a probable cause drawn from the fixed
vocabulary, and returns the empty list; on a fully successful pass it
returns the normalized listings and resets the counter to zero. -/
theorem C4_scrape_error_contract (transform : RawListing → Listing)
    (st : ProviderState) (maxResults : Nat) (hen : isEnabled st = true) :
    (∀ msg, browserScrape transform st (.err msg) maxResults = ([], handleError st msg) ∧
      (handleError st msg).consecutiveErrors = st.consecutiveErrors + 1 ∧
      (handleError st msg).lastError = some ⟨msg, detectPossibleCause msg⟩ ∧
      detectPossibleCause msg ∈ causeVocabulary) ∧
    (browserScrape transform st (.ok []) maxResults = ([], handleError st noListingsMsg) ∧
      (handleError st noListingsMsg).consecutiveErrors = st.consecutiveErrors + 1) ∧
    (∀ raws, raws ≠ [] →
      browserScrape transform st (.ok raws) maxResults
        = (((raws.filter isValidListing).take maxResults).map transform, resetErrors st) ∧
      (resetErrors st).consecutiveErrors = 0) := by
  refine ⟨?_, ?_, ?_⟩
  · intro msg
    exact ⟨by simp [browserScrape, hen], rfl, rfl, detectPossibleCause_mem_vocab msg⟩
  · exact ⟨by simp [browserScrape, hen], rfl⟩
  · intro raws hraws
    have hlen : (raws.length == 0) = false := by
      cases raws with
      | nil => exact absurd rfl hraws
      | cons a l => simp
    exact ⟨by simp [browserScrape, hen, hlen], rfl⟩

/-- Witness for C4: an enabled provider state with two prior errors, hit
by a thrown timeout — it returns the empty list with the error recorded. -/
theorem C4_witness :
    isEnabled ⟨some "https://site", 2, none⟩ = true ∧
    browserScrape (fun _ => sampleListing "h") ⟨some "https://site", 2, none⟩
        (.err "Navigation timeout of 30000 ms exceeded") 5
      = ([], handleError ⟨some "https://site", 2, none⟩
          "Navigation timeout of 30000 ms exceeded") :=
  ⟨by decide,
   ((C4_scrape_error_contract (fun _ => sampleListing "h")
      ⟨some "https://site", 2, none⟩ 5 (by decide)).1
      "Navigation timeout of 30000 ms exceeded").1⟩

/-! ## C5 -/

theorem isEnabled_handleError (st : ProviderState) (msg : String) :
    isEnabled (handleError st msg) = isEnabled st := rfl

/-- C5: the reported healthy flag holds exactly when the consecutive-error
counter is zero and the last scrape returned at least one listing (so a
zero-listing scrape is never healthy); three consecutive failing scrapes
leave the counter at 3 with `healthy = false`, and one subsequent scrape
whose returned listing list is non-empty resets the counter to 0 and
reports `healthy = true`. -/
theorem C5_health_transitions (name : String) (transform : RawListing → Listing)
    (maxResults : Nat) (st : ProviderState)
    (h0 : st.consecutiveErrors = 0) (hen : isEnabled st = true)
    (m1 m2 m3 : String) :
    (∀ (listings : List Listing) (errors : Nat),
      (mkProviderStatus name listings errors).healthy = true ↔ (errors = 0 ∧ listings ≠ [])) ∧
    (∀ errors : Nat, (mkProviderStatus name [] errors).healthy = false) ∧
    (let st1 := (browserScrape transform st (.err m1) maxResults).2
     let st2 := (browserScrape transform st1 (.err m2) maxResults).2
     let st3 := (browserScrape transform st2 (.err m3) maxResults).2
     st3.consecutiveErrors = 3 ∧
     (mkProviderStatus name (browserScrape transform st2 (.err m3) maxResults).1
        st3.consecutiveErrors).healthy = false ∧
     (∀ raws : List RawListing, (raws.filter isValidListing).take maxResults ≠ [] →
       (browserScrape transform st3 (.ok raws) maxResults).2.consecutiveErrors = 0 ∧
       (mkProviderStatus name (browserScrape transform st3 (.ok raws) maxResults).1
          (browserScrape transform st3 (.ok raws) maxResults).2.consecutiveErrors).healthy
         = true)) := by
  have hhealthy : ∀ (listings : List Listing) (errors : Nat),
      (mkProviderStatus name listings errors).healthy = true ↔ (errors = 0 ∧ listings ≠ []) := by
    intro listings errors
    simp [mkProviderStatus, List.length_pos]
  refine ⟨hhealthy, ?_, ?_⟩
  · intro errors
    cases h : (mkProviderStatus name [] errors).healthy with
    | false => rfl
    | true => exact absurd ((hhealthy [] errors).mp h).2 (by simp)
  · have hs1 : browserScrape transform st (.err m1) maxResults = ([], handleError st m1) := by
      simp [browserScrape, hen]
    have hen1 : isEnabled (handleError st m1) = true := by rw [isEnabled_handleError]; exact hen
    have hs2 : browserScrape transform (handleError st m1) (.err m2) maxResults
        = ([], handleError (handleError st m1) m2) := by
      simp [browserScrape, hen1]
    have hen2 : isEnabled (handleError (handleError st m1) m2) = true := by
      rw [isEnabled_handleError, isEnabled_handleError]; exact hen
    have hs3 : browserScrape transform (handleError (handleError st m1) m2) (.err m3) maxResults
        = ([], handleError (handleError (handleError st m1) m2) m3) := by
      simp [browserScrape, hen2]
    simp only [hs1, hs2, hs3]
    have herr3 : (handleError (handleError (handleError st m1) m2) m3).consecutiveErrors = 3 := by
      simp [handleError, h0]
    refine ⟨herr3, ?_, ?_⟩
    · cases h : (mkProviderStatus name []
        (handleError (handleError (handleError st m1) m2) m3).consecutiveErrors).healthy with
      | false => rfl
      | true => exact absurd ((hhealthy _ _).mp h).2 (by simp)
    · intro raws htake
      have hen3 : isEnabled (handleError (handleError (handleError st m1) m2) m3) = true := by
        rw [isEnabled_handleError, isEnabled_handleError, isEnabled_handleError]; exact hen
      have hraws : (raws.length == 0) = false := by
        cases raws with
        | nil => simp at htake
        | cons a l => simp
      have hok : browserScrape transform (handleError (handleError (handleError st m1) m2) m3)
          (.ok raws) maxResults
          = (((raws.filter isValidListing).take maxResults).map transform,
             resetErrors (handleError (handleError (handleError st m1) m2) m3)) := by
        simp [browserScrape, hen3, hraws]
      simp only [hok]
      refine ⟨rfl, ?_⟩
      refine (hhealthy _ _).mpr ⟨rfl, ?_⟩
      simpa using htake

/-- Witness for C5: a fresh enabled provider, three thrown errors, then a
successful scrape returning one valid listing — the counter ends at 0. -/
theorem C5_witness :
    ((⟨some "https://site", 0, none⟩ : ProviderState).consecutiveErrors = 0) ∧
    (([({ link := some "https://x", title := some "Flat" } : RawListing)].filter
        isValidListing).take 5 ≠ []) ∧
    (browserScrape (fun _ => sampleListing "h")
      (browserScrape (fun _ => sampleListing "h")
        (browserScrape (fun _ => sampleListing "h")
          (browserScrape (fun _ => sampleListing "h") ⟨some "https://site", 0, none⟩
            (.err "a") 5).2 (.err "b") 5).2 (.err "c") 5).2
      (.ok [{ link := some "https://x", title := some "Flat" }]) 5).2.consecutiveErrors = 0 := by
  refine ⟨rfl, by decide, ?_⟩
  exact ((C5_health_transitions "P" (fun _ => sampleListing "h") 5
    ⟨some "https://site", 0, none⟩ rfl (by decide) "a" "b" "c").2.2.2.2
    [{ link := some "https://x", title := some "Flat" }] (by decide)).1

/-! ## C6 -/

/-- Counterexample for C6 as stated: for a record whose stable fields are
all absent (`buildHash` receives `[null, null]`, as `normalizeListing`
does when `raw.id` and `raw.price` are missing), the code hashes
`Date.now().toString()`, so two calls at different times yield different
fingerprints.  Here the digests at times 0 and 1 differ. -/
theorem C6_counterexample :
    ¬ (buildHash [none, none] 0 = buildHash [none, none] 1) := by decide

/-- C6 (amended): `buildHash` is deterministic — independent of the call
time — whenever at least one stable input survives cleaning (is present
and non-empty); equal inputs then always produce equal output across
repeated calls and processes. -/
theorem C6_buildHash_deterministic (inputs : List (Option String))
    (now1 now2 : Nat) (h : cleanedInputs inputs ≠ []) :
    buildHash inputs now1 = buildHash inputs now2 := by
  have hlen : ((cleanedInputs inputs).length == 0) = false := by
    cases hc : cleanedInputs inputs with
    | nil => exact absurd hc h
    | cons a l => simp
  simp [buildHash, hlen]

/-- Witness for C6: with a present, non-empty id input the fingerprint at
two different call times agrees. -/
theorem C6_witness :
    cleanedInputs [some "id-123", none] ≠ [] ∧
    buildHash [some "id-123", none] 0 = buildHash [some "id-123", none] 1 :=
  ⟨by decide, C6_buildHash_deterministic [some "id-123", none] 0 1 (by decide)⟩

/-! ## C7 -/

def failCycle : List (String × String) := [("P", "user1")]

def freshMon : MonState := {}

/-- The tracker state after at least one failing cycle of the single
provider/user scenario. -/
def monSt (cfi : Nat) (ntf : Bool) : MonState :=
  { errorAlertsEnabled := true,
    currentIterationErrors := [("P", ["user1"])],
    consecutiveFailedIterations := cfi,
    notifiedForCurrentStreak := ntf }

theorem runCycle_fail (st : MonState) :
    runCycle st failCycle =
      (if st.errorAlertsEnabled &&
          decide (st.consecutiveFailedIterations + 1 ≥ CONSECUTIVE_FAILURES_THRESHOLD) &&
          !st.notifiedForCurrentStreak
       then ({ st with
                currentIterationErrors := [("P", ["user1"])],
                consecutiveFailedIterations := st.consecutiveFailedIterations + 1,
                notifiedForCurrentStreak := true }, true)
       else ({ st with
                currentIterationErrors := [("P", ["user1"])],
                consecutiveFailedIterations := st.consecutiveFailedIterations + 1 }, false)) := rfl

theorem runCycles_monSt_notified (n : Nat) :
    ∀ k, runCycles (monSt k true) (List.replicate n failCycle) = (monSt (k + n) true, 0) := by
  induction n with
  | zero => intro k; simp [runCycles]
  | succ n ih =>
    intro k
    have hstep : runCycle (monSt k true) failCycle = (monSt (k + 1) true, false) := by
      rw [runCycle_fail]; simp [monSt]
    simp only [List.replicate_succ, runCycles, hstep, ih (k + 1)]
    have h : k + 1 + n = k + (n + 1) := by omega
    rw [h]
    simp

theorem runCycles_monSt_streak (n : Nat) :
    ∀ k, runCycles (monSt k false) (List.replicate n failCycle)
      = if k + n ≥ CONSECUTIVE_FAILURES_THRESHOLD ∧ 1 ≤ n
        then (monSt (k + n) true, 1) else (monSt (k + n) false, 0) := by
  simp only [CONSECUTIVE_FAILURES_THRESHOLD]
  induction n with
  | zero =>
    intro k
    rw [if_neg (by omega)]
    simp [runCycles]
  | succ n ih =>
    intro k
    by_cases h : k + 1 ≥ 4
    · have hstep : runCycle (monSt k false) failCycle = (monSt (k + 1) true, true) := by
        rw [runCycle_fail]
        simp [monSt, CONSECUTIVE_FAILURES_THRESHOLD, h]
      simp only [List.replicate_succ, runCycles, hstep, runCycles_monSt_notified n (k + 1)]
      have he : k + 1 + n = k + (n + 1) := by omega
      rw [he]
      have hc : 4 ≤ k + (n + 1) := by omega
      simp [hc]
    · have hstep : runCycle (monSt k false) failCycle = (monSt (k + 1) false, false) := by
        rw [runCycle_fail]
        have hd : (decide (k + 1 ≥ CONSECUTIVE_FAILURES_THRESHOLD)) = false := by
          simp [CONSECUTIVE_FAILURES_THRESHOLD]
          omega
        simp [monSt, hd]
      simp only [List.replicate_succ, runCycles, hstep, ih (k + 1)]
      by_cases h2 : k + 1 + n ≥ 4 ∧ 1 ≤ n
      · rw [if_pos h2]
        have he : k + 1 + n = k + (n + 1) := by omega
        rw [he]
        have hc : 4 ≤ k + (n + 1) := by omega
        simp [hc]
      · rw [if_neg h2]
        have he : k + 1 + n = k + (n + 1) := by omega
        rw [he]
        have hc : ¬ (4 ≤ k + (n + 1)) := by omega
        simp [hc]

theorem runCycles_fresh_streak (n : Nat) (hn : 1 ≤ n) :
    runCycles freshMon (List.replicate n failCycle)
      = if CONSECUTIVE_FAILURES_THRESHOLD ≤ n then (monSt n true, 1) else (monSt n false, 0) := by
  simp only [CONSECUTIVE_FAILURES_THRESHOLD]
  cases n with
  | zero => omega
  | succ m =>
    have hstep : runCycle freshMon failCycle = (monSt 1 false, false) := rfl
    have hs := runCycles_monSt_streak m 1
    simp only [CONSECUTIVE_FAILURES_THRESHOLD] at hs
    simp only [List.replicate_succ, runCycles, hstep, hs]
    have he : 1 + m = m + 1 := by omega
    rw [he]
    by_cases h : 4 ≤ m + 1
    · have hc1 : (m + 1 ≥ 4 ∧ 1 ≤ m) := by omega
      simp [hc1, h]
    · have hc1 : ¬ (m + 1 ≥ 4 ∧ 1 ≤ m) := by omega
      simp [hc1, h]

theorem runCycles_append (st : MonState) (l1 l2 : List (List (String × String))) :
    runCycles st (l1 ++ l2)
      = ((runCycles (runCycles st l1).1 l2).1,
         (runCycles st l1).2 + (runCycles (runCycles st l1).1 l2).2) := by
  induction l1 generalizing st with
  | nil => simp [runCycles]
  | cons c cs ih =>
    rw [List.cons_append]
    simp only [runCycles]
    rw [ih]
    simp [Nat.add_assoc]

/-- C7: with error alerts enabled from a fresh tracker, failing cycles
emit no alert before the threshold (3 cycles: 0 alerts), exactly one
aggregate alert at the cycle where the consecutive-failed-iterations
counter first reaches the threshold of 4, and no additional alert in any
longer unbroken streak; a clean cycle resets both the counter and the
already-notified flag, so a later failing run re-triggers exactly one
new alert (two alerts in total across the two streaks). -/
theorem C7_iteration_alert_dedup :
    CONSECUTIVE_FAILURES_THRESHOLD = 4 ∧
    (runCycles freshMon (List.replicate 3 failCycle)).2 = 0 ∧
    (runCycles freshMon (List.replicate 4 failCycle)).2 = 1 ∧
    (∀ n, 4 ≤ n → (runCycles freshMon (List.replicate n failCycle)).2 = 1) ∧
    (∀ st : MonState, (runCycle st []).1.consecutiveFailedIterations = 0 ∧
      (runCycle st []).1.notifiedForCurrentStreak = false ∧ (runCycle st []).2 = false) ∧
    (∀ n m, 4 ≤ n → 4 ≤ m →
      (runCycles freshMon
        (List.replicate n failCycle ++ [] :: List.replicate m failCycle)).2 = 2) := by
  refine ⟨rfl, by decide, by decide, ?_, ?_, ?_⟩
  · intro n hn
    have h := runCycles_fresh_streak n (by omega)
    rw [if_pos (by simpa [CONSECUTIVE_FAILURES_THRESHOLD] using hn)] at h
    rw [h]
  · intro st
    exact ⟨rfl, rfl, rfl⟩
  · intro n m hn hm
    rw [runCycles_append]
    have h1 := runCycles_fresh_streak n (by omega)
    rw [if_pos (by simpa [CONSECUTIVE_FAILURES_THRESHOLD] using hn)] at h1
    rw [h1]
    have hclean : runCycle (monSt n true) [] = (freshMon, false) := rfl
    simp only [runCycles, hclean]
    have h2 := runCycles_fresh_streak m (by omega)
    rw [if_pos (by simpa [CONSECUTIVE_FAILURES_THRESHOLD] using hm)] at h2
    rw [h2]
    simp

/-- Witness for C7: a 5-cycle failing streak still emits exactly one
alert, and a broken streak (5 failures, one clean cycle, 4 failures)
emits exactly two. -/
theorem C7_witness :
    (4 ≤ 5 ∧ (runCycles freshMon (List.replicate 5 failCycle)).2 = 1) ∧
    (runCycles freshMon
      (List.replicate 5 failCycle ++ [] :: List.replicate 4 failCycle)).2 = 2 :=
  ⟨⟨by decide, C7_iteration_alert_dedup.2.2.2.1 5 (by decide)⟩,
   C7_iteration_alert_dedup.2.2.2.2.2 5 4 (by decide) (by decide)⟩

/-! ## C8 -/

theorem jsStartsWith_domain_http (x : String) :
    jsStartsWith (kleinanzeigenDomain ++ x) "http" = true := by
  unfold jsStartsWith
  rw [List.isPrefixOf_iff_prefix]
  have h1 : "http".toList <+: kleinanzeigenDomain.toList := by decide
  have h2 : kleinanzeigenDomain.toList <+: (kleinanzeigenDomain ++ x).toList := by
    show kleinanzeigenDomain.data <+: (kleinanzeigenDomain ++ x).data
    rw [String.data_append]
    exact List.prefix_append _ _
  exact h1.trans h2

/-- C8: every raw listing that passes the structural-validity filter (and
so has a non-empty link) leaves `KleinanzeigenProvider.transformListing`
with an absolute link: a link already starting with `http` is kept
verbatim, any other link is prefixed with the provider's domain, and in
both cases the final link starts with `http`. -/
theorem C8_kleinanzeigen_link_absolute (now : Nat) (raw : RawListing) (l : String)
    (hlink : raw.link = some l) (hvalid : isValidListing raw = true) :
    (((kleinanzeigenTransform now raw).link = l ∧ jsStartsWith l "http" = true) ∨
      (kleinanzeigenTransform now raw).link = kleinanzeigenDomain ++ l) ∧
    jsStartsWith (kleinanzeigenTransform now raw).link "http" = true := by
  have hlne : (l == "") = false := by
    simp only [isValidListing, hlink] at hvalid
    simp at hvalid
    simpa using hvalid.1.1
  have hnl : (normalizeListing now raw "Kleinanzeigen").link = l := by
    simp [normalizeListing, jsOrD, hlink, hlne]
  cases hsw : jsStartsWith l "http" with
  | true =>
    have heq : kleinanzeigenTransform now raw = normalizeListing now raw "Kleinanzeigen" := by
      unfold kleinanzeigenTransform
      simp [hnl, hsw]
    rw [heq, hnl]
    exact ⟨Or.inl ⟨rfl, rfl⟩, hsw⟩
  | false =>
    have heq : (kleinanzeigenTransform now raw).link = kleinanzeigenDomain ++ l := by
      unfold kleinanzeigenTransform
      simp [hnl, hsw, hlne]
    rw [heq]
    exact ⟨Or.inr rfl, jsStartsWith_domain_http l⟩

/-- Witness for C8: a valid raw listing with the relative link
`/s-anzeige/wohnung/123` gets the Kleinanzeigen domain prefixed. -/
theorem C8_witness :
    ({ link := some "/s-anzeige/wohnung/123", title := some "Wohnung" } : RawListing).link
      = some "/s-anzeige/wohnung/123" ∧
    isValidListing { link := some "/s-anzeige/wohnung/123", title := some "Wohnung" } = true ∧
    jsStartsWith (kleinanzeigenTransform 0
      { link := some "/s-anzeige/wohnung/123", title := some "Wohnung" }).link "http" = true :=
  ⟨rfl, by decide,
   (C8_kleinanzeigen_link_absolute 0
      { link := some "/s-anzeige/wohnung/123", title := some "Wohnung" }
      "/s-anzeige/wohnung/123" rfl (by decide)).2⟩

/-! ## C9 -/

/-- Counterexample for C9 as stated: for a container element whose own
text content is empty (`sel = "*"`, no attribute), the code's
`|| null` turns the empty trimmed text into null, while the claim's
description makes the field value the (empty) trimmed text content. -/
theorem C9_counterexample :
    ¬ (evalParsed ⟨⟨some "", []⟩, fun _ => QueryResult.qnone⟩ "*" ""
        = specFieldValue ⟨⟨some "", []⟩, fun _ => QueryResult.qnone⟩ "*" "") := by
  have h1 : evalParsed ⟨⟨some "", []⟩, fun _ => QueryResult.qnone⟩ "*" "" = none := rfl
  have h2 : specFieldValue ⟨⟨some "", []⟩, fun _ => QueryResult.qnone⟩ "*" "" = some "" := rfl
  rw [h1, h2]
  simp

/-- C9 (amended): per-field extraction follows the spec's description with
one extra null case — the text branch also yields null when the matched
element has no text content or its collapsed and trimmed text is empty.
An attribute lookup returns the attribute's string or null; a selector
matching nothing, or a throwing `querySelector`, yields null; and each
field of a container is extracted independently, so a malformed or
throwing field becomes null in place without affecting the other
fields. -/
theorem C9_extraction_field_contract (card : DomCard) (sel attr : String) :
    evalParsed card sel attr = specFieldValueAmended card sel attr ∧
    (∀ expr, evalField card expr = evalParsed card (parseField expr).1 (parseField expr).2) ∧
    (∀ (fields1 fields2 : List (String × String)) (k e : String),
      extractCard card (fields1 ++ (k, e) :: fields2)
        = extractCard card fields1 ++ (k, evalField card e) :: extractCard card fields2) := by
  refine ⟨?_, fun expr => rfl, ?_⟩
  · unfold evalParsed specFieldValueAmended
    cases hel : (if sel == "*" then QueryResult.qfound card.self else card.query sel) with
    | qerr => simp
    | qnone => simp
    | qfound n =>
      simp only []
      by_cases ha : (attr == "") = true
      · cases ht : n.textContent with
        | none => simp [ha, textValue, ht]
        | some t => simp [ha, textValue, ht]
      · simp [ha]
  · intro f1 f2 k e
    unfold extractCard
    simp

/-! ## C10 -/

theorem jsOrNull_eq_none (o : Option String) :
    jsOrNull o = none ↔ (o = none ∨ o = some "") := by
  cases o with
  | none => simp [jsOrNull]
  | some s => by_cases h : s = "" <;> simp [jsOrNull, h]

/-- C10: `normalizeListing` produces a listing whose title and address are
never null or empty — each falls back to `"N/A"` when the raw field is
missing or trims to empty, with the first literal `NEU` marker stripped
from titles — whose id falls back to the computed hash when the raw id is
absent (or empty, which JS truthiness treats the same), and whose price,
size, description and image are null exactly when the corresponding raw
field is absent or empty. -/
theorem C10_normalizeListing_contract (now : Nat) (raw : RawListing) (source : String) :
    (normalizeListing now raw source).title ≠ "" ∧
    (∀ a, (normalizeListing now raw source).address = some a → a ≠ "") ∧
    (normalizeListing now raw source).address ≠ none ∧
    (raw.title = none → (normalizeListing now raw source).title = "N/A") ∧
    (∀ t, raw.title = some t → jsTrim (removeFirstStr "NEU" t) = "" →
      (normalizeListing now raw source).title = "N/A") ∧
    (∀ t, raw.title = some t → jsTrim (removeFirstStr "NEU" t) ≠ "" →
      (normalizeListing now raw source).title = jsTrim (removeFirstStr "NEU" t)) ∧
    (raw.address = none → (normalizeListing now raw source).address = some "N/A") ∧
    ((raw.id = none ∨ raw.id = some "") →
      (normalizeListing now raw source).id = (normalizeListing now raw source).hash) ∧
    (∀ s, raw.id = some s → s ≠ "" → (normalizeListing now raw source).id = s) ∧
    ((normalizeListing now raw source).price = none ↔
      (raw.price = none ∨ raw.price = some "")) ∧
    ((normalizeListing now raw source).size = none ↔
      (raw.size = none ∨ raw.size = some "")) ∧
    ((normalizeListing now raw source).description = none ↔
      (raw.description = none ∨ raw.description = some "")) ∧
    ((normalizeListing now raw source).image = none ↔
      (raw.image = none ∨ raw.image = some "")) := by
  refine ⟨?_, ?_, ?_, ?_, ?_, ?_, ?_, ?_, ?_, ?_, ?_, ?_, ?_⟩
  · cases ht : raw.title with
    | none => simp [normalizeListing, ht]
    | some t =>
      by_cases h : (jsTrim (removeFirstStr "NEU" t) == "") = true <;>
        simp_all [normalizeListing, ht]
  · intro a ha
    cases had : raw.address with
    | none => simp [normalizeListing, had] at ha; simp [← ha]
    | some ad =>
      by_cases h : (jsTrim (String.mk (stripParenTail ad.toList)) == "") = true <;>
        simp_all [normalizeListing, had]
      subst ha
      decide
  · simp [normalizeListing]
  · intro ht; simp [normalizeListing, ht]
  · intro t ht htr
    simp [normalizeListing, ht, htr]
  · intro t ht htr
    have h : (jsTrim (removeFirstStr "NEU" t) == "") = false := by
      cases h' : (jsTrim (removeFirstStr "NEU" t) == "") with
      | false => rfl
      | true => simp at h'; exact absurd h' htr
    simp [normalizeListing, ht, h]
  · intro had; simp [normalizeListing, had]
  · intro hid
    cases hid with
    | inl h => simp [normalizeListing, jsOrD, h]
    | inr h => simp [normalizeListing, jsOrD, h]
  · intro s hs hne
    have h : (s == "") = false := by
      cases h' : (s == "") with
      | false => rfl
      | true => simp at h'; exact absurd h' hne
    simp [normalizeListing, jsOrD, hs, h]
  · exact jsOrNull_eq_none raw.price
  · exact jsOrNull_eq_none raw.size
  · exact jsOrNull_eq_none raw.description
  · exact jsOrNull_eq_none raw.image

/-- Witness for C10: a raw listing whose title trims to empty after the
`NEU` strip, with empty price and absent id — the title falls back to
`"N/A"`, the price is null and the id equals the hash. -/
theorem C10_witness :
    (normalizeListing 0 { title := some " NEU ", price := some "" } "S").title = "N/A" ∧
    (normalizeListing 0 { title := some " NEU ", price := some "" } "S").price = none ∧
    (normalizeListing 0 { title := some " NEU ", price := some "" } "S").id
      = (normalizeListing 0 { title := some " NEU ", price := some "" } "S").hash := by
  have h := C10_normalizeListing_contract 0 { title := some " NEU ", price := some "" } "S"
  exact ⟨h.2.2.2.2.1 " NEU " rfl (by decide),
         (h.2.2.2.2.2.2.2.2.2.1).mpr (Or.inr rfl),
         h.2.2.2.2.2.2.2.1 (Or.inl rfl)⟩

end Apartments
